import Mathlib

/-!
Shallow embedding of the google-drive-clone backend (TypeScript/JavaScript
sources) for checking its natural-language specification.

The repository contains two server variants plus a firebase upload
experiment:
* `src/server/index.js` — supabase-admin server (folders/files CRUD, trash,
  hard delete).  Handlers here are suffixed `Idx`.
* `src/routes/*.ts` (files `part_000` … `part_006`) — typed Express server
  with share links, email grants, permission table, search.  Handlers here
  are suffixed `Rts`.
* `src/src/routes/upload.routes.ts` — firebase-storage upload route,
  modelled as `uploadFirebase`.

The relational store is modelled as lists of rows; the blob store as a list
of object keys.  Each supabase `.single()` call is modelled by
`selectSingle` (result only when exactly one row matches, like PostgREST).
Timestamps (`new Date()`) are `Nat` parameters threaded in by the caller;
separate `new Date()` calls in the source receive separate parameters.
External randomness (uuid v4, the `link_token` column default of the
`shares` table) enters as explicit string parameters.
-/

namespace GDrive

/-- Role levels exactly as in `utils/permissions.ts` (`'viewer' | 'editor' | 'owner'`). -/
inductive Role where
  | viewer
  | editor
  | owner
deriving DecidableEq, Repr

/-- Actions exactly as in `utils/permissions.ts`. -/
inductive Action where
  | read
  | write
  | hardDelete
  | share
deriving DecidableEq, Repr

/-- The fixed `can` table of `utils/permissions.ts`. -/
def can : Role → List Action
  | .viewer => [.read]
  | .editor => [.read, .write]
  | .owner  => [.read, .write, .hardDelete, .share]

/-- `roleAllows` from `utils/permissions.ts`: `can[role]?.includes(action) ?? false`. -/
def roleAllows (r : Role) (a : Action) : Bool :=
  (can r).contains a

/-- Resource kinds; the string union `'file' | 'folder'` of the sources. -/
inductive ResourceType where
  | file
  | folder
deriving DecidableEq, Repr

instance : BEq ResourceType := ⟨fun a b => decide (a = b)⟩

instance : LawfulBEq ResourceType where
  eq_of_beq h := by simpa [BEq.beq] using h
  rfl := by simp [BEq.beq]

/-- Row of the `files` table.  Field names cover both schemas:
`ownerId` is `owner_id` (routes variant) / `owner` (index.js variant),
`storagePath` is `storage_path` / `bucket_path`, and `isDeleted` is the
`is_deleted` flag that only the index.js schema has. -/
structure FileRow where
  id : String
  name : String
  ownerId : String
  folderId : Option String
  deletedAt : Option Nat := none
  isDeleted : Bool := false
  storagePath : String := ""
  size : Nat := 0
  mime : String := ""
  createdAt : Nat := 0
  updatedAt : Nat := 0
deriving DecidableEq, Repr

/-- Row of the `folders` table (same naming conventions as `FileRow`). -/
structure FolderRow where
  id : String
  name : String
  ownerId : String
  parentId : Option String
  deletedAt : Option Nat := none
  isDeleted : Bool := false
  createdAt : Nat := 0
  updatedAt : Nat := 0
deriving DecidableEq, Repr

/-- Row of the `shares` table (one link share per resource; `link_token`
is filled by a column default on insert). -/
structure ShareRow where
  resourceType : ResourceType
  resourceId : String
  ownerId : String
  role : Role
  expiresAt : Option Nat := none
  linkToken : String
deriving DecidableEq, Repr

/-- Row of the `permissions` table (email grants). -/
structure PermissionRow where
  resourceType : ResourceType
  resourceId : String
  granteeEmail : String
  role : Role
deriving DecidableEq, Repr

/-- The relational store. -/
structure DB where
  files : List FileRow := []
  folders : List FolderRow := []
  shares : List ShareRow := []
  permissions : List PermissionRow := []
deriving DecidableEq, Repr

/-- Supabase `.select(...).eq(...).single()`: data only when exactly one
row matches, otherwise an error (which every handler treats as absence). -/
def selectSingle (p : α → Bool) (l : List α) : Option α :=
  match l.filter p with
  | [r] => some r
  | _ => none

/-- HTTP outcome of a handler: success or an error status code. -/
inductive Resp where
  | ok
  | err (status : Nat)
deriving DecidableEq, Repr

/-- JavaScript `x || null` on an optional string (empty string is falsy). -/
def jsOrNull : Option String → Option String
  | some s => if s.isEmpty then none else some s
  | none => none

/-- Owner lookup of `resolveUserRole` step 1
(`supabase.from(table).select('owner_id').eq('id', resourceId).single()`). -/
def ownerIdOf (db : DB) (rt : ResourceType) (rid : String) : Option String :=
  match rt with
  | .file => (selectSingle (fun f => f.id == rid) db.files).map (fun f => f.ownerId)
  | .folder => (selectSingle (fun f => f.id == rid) db.folders).map (fun f => f.ownerId)

/-- The JS truthiness test
`ownerRow.data?.owner_id && userId && ownerRow.data.owner_id === userId`. -/
def ownerCheckPasses (ownerId? : Option String) (userId : Option String) : Bool :=
  match ownerId?, userId with
  | some o, some u => !o.isEmpty && !u.isEmpty && o == u
  | _, _ => false

/-- Key predicate of the `shares` table queries:
`.eq('resource_type', rt).eq('resource_id', rid)`. -/
def shareKey (rt : ResourceType) (rid : String) (s : ShareRow) : Bool :=
  s.resourceType == rt && s.resourceId == rid

/-- Share lookup of `resolveUserRole` step 3
(`.eq('resource_type', rt).eq('resource_id', rid).eq('link_token', tok).single()`). -/
def findShare (db : DB) (rt : ResourceType) (rid : String) (tok : String) : Option ShareRow :=
  selectSingle (fun s => shareKey rt rid s && s.linkToken == tok) db.shares

/-- `resolveUserRole` from `utils/roles.ts` (`part_000`).  The function
checks ownership, then — per its own comment — skips email grants
entirely (the `permissions` table is never queried and no email is even a
parameter), then checks the link-share token; an expired link
(`expires_at` strictly in the past) yields `null`, as does a missing or
falsy token.  There is no error path: a missing resource simply fails the
owner test. -/
def resolveUserRole (db : DB) (now : Nat) (userId : Option String)
    (rt : ResourceType) (rid : String) (shareToken : Option String) : Option Role :=
  if ownerCheckPasses (ownerIdOf db rt rid) userId then
    some Role.owner
  else
    match shareToken with
    | some tok =>
      if tok.isEmpty then none
      else
        match findShare db rt rid tok with
        | some sh =>
          match sh.expiresAt with
          | some e => if e < now then none else some sh.role
          | none => some sh.role
        | none => none
    | none => none

/-- `ensureAllowed` from `utils/roles.ts`: throws a 403 error unless the
role is present and `roleAllows role action`. -/
def ensureAllowed (role : Option Role) (action : Action) : Except Nat Unit :=
  match role with
  | none => .error 403
  | some r => if roleAllows r action then .ok () else .error 403

/-! ## server/index.js handlers (supabase-admin variant) -/

/-- `PATCH /folders/:id/move` in `server/index.js`.  The handler runs the
update directly — there is no fetch of the folder and no owner comparison
before it.  `now` is the `new Date()` written into `updated_at`. -/
def moveFolderIdx (db : DB) (now : Nat) (_callerId : String) (id : String)
    (parent_id : Option String) : DB × Resp :=
  let folders1 := db.folders.map (fun f =>
    if f.id == id then { f with parentId := jsOrNull parent_id, updatedAt := now } else f)
  match selectSingle (fun f => f.id == id) folders1 with
  | some _ => ({ db with folders := folders1 }, .ok)
  | none => ({ db with folders := folders1 }, .err 500)

/-- `PATCH /files/:id/move` in `server/index.js`.  Like the folder move,
it updates unconditionally with no ownership check. -/
def moveFileIdx (db : DB) (now : Nat) (_callerId : String) (id : String)
    (folder_id : Option String) : DB × Resp :=
  let files1 := db.files.map (fun f =>
    if f.id == id then { f with folderId := jsOrNull folder_id, updatedAt := now } else f)
  match selectSingle (fun f => f.id == id) files1 with
  | some _ => ({ db with files := files1 }, .ok)
  | none => ({ db with files := files1 }, .err 500)

/-- `DELETE /folders/:id` in `server/index.js` (soft delete).  `tF` is the
`new Date()` written to the folder row, `tX` the separate `new Date()` of
the follow-up files update (`.eq("folder_id", id)`), whose result the
source never checks. -/
def softDeleteFolderIdx (db : DB) (tF tX : Nat) (callerId : String) (id : String) :
    DB × Resp :=
  match selectSingle (fun f => f.id == id) db.folders with
  | none => (db, .err 404)
  | some folder =>
    if folder.ownerId ≠ callerId then (db, .err 403)
    else
      match selectSingle (fun f => f.id == id)
          (db.folders.map (fun f =>
            if f.id == id then { f with isDeleted := true, deletedAt := some tF, updatedAt := tF }
            else f)) with
      | none =>
        ({ db with folders := db.folders.map (fun f =>
             if f.id == id then { f with isDeleted := true, deletedAt := some tF, updatedAt := tF }
             else f) }, .err 500)
      | some _ =>
        ({ db with
            folders := db.folders.map (fun f =>
              if f.id == id then { f with isDeleted := true, deletedAt := some tF, updatedAt := tF }
              else f),
            files := db.files.map (fun f =>
              if f.folderId == some id then { f with isDeleted := true, deletedAt := some tX }
              else f) }, .ok)

/-- `POST /restore/folder/:id` in `server/index.js`.  Mirrors the shape of
the soft delete: folder row first, then the unchecked files update. -/
def restoreFolderIdx (db : DB) (tF : Nat) (callerId : String) (id : String) :
    DB × Resp :=
  match selectSingle (fun f => f.id == id) db.folders with
  | none => (db, .err 404)
  | some folder =>
    if folder.ownerId ≠ callerId then (db, .err 403)
    else
      match selectSingle (fun f => f.id == id)
          (db.folders.map (fun f =>
            if f.id == id then { f with isDeleted := false, deletedAt := none, updatedAt := tF }
            else f)) with
      | none =>
        ({ db with folders := db.folders.map (fun f =>
             if f.id == id then { f with isDeleted := false, deletedAt := none, updatedAt := tF }
             else f) }, .err 500)
      | some _ =>
        ({ db with
            folders := db.folders.map (fun f =>
              if f.id == id then { f with isDeleted := false, deletedAt := none, updatedAt := tF }
              else f),
            files := db.files.map (fun f =>
              if f.folderId == some id then { f with isDeleted := false, deletedAt := none }
              else f) }, .ok)

/-- JS `originalname.replace(/\s+/g, "_")`: every maximal run of
whitespace becomes a single underscore. -/
def collapseWs (s : String) : String :=
  (s.toList.foldl
    (fun (acc : String × Bool) c =>
      if c.isWhitespace then (if acc.2 then acc else (acc.1.push '_', true))
      else (acc.1.push c, false))
    ("", false)).1

/-- `POST /files/upload` in `server/index.js`.  `newId` stands for the
external `uuidv4()`; `uploadFails`/`insertFails` are the outcomes of the
two external store calls.  On a failed metadata insert the handler removes
the just-uploaded storage object before answering 500. -/
def uploadIdx (db : DB) (storage : List String) (owner : String)
    (originalname mimetype : String) (size : Nat) (folder_id : Option String)
    (newId : String) (uploadFails insertFails : Bool) :
    DB × List String × Resp :=
  let path := "user-" ++ owner ++ "/" ++ newId ++ "_" ++ collapseWs originalname
  if uploadFails then (db, storage, .err 500)
  else
    let storage1 := path :: storage
    if insertFails then
      (db, storage1.filter (fun p => !(p == path)), .err 500)
    else
      let row : FileRow :=
        { id := newId, name := originalname, ownerId := owner,
          folderId := jsOrNull folder_id, storagePath := path,
          size := size, mime := mimetype }
      ({ db with files := db.files ++ [row] }, storage1, .ok)

/-- `DELETE /folders/:id/hard` in `server/index.js`.  `blobFails p = true`
means the blob-store `remove` for path `p` throws; the handler catches the
exception, logs a warning and carries on.  The bulk file-row delete has
its error ignored by the source, and the folder row is then deleted. -/
def hardDeleteFolderIdx (db : DB) (storage : List String) (blobFails : String → Bool)
    (callerId : String) (id : String) : DB × List String × Resp :=
  match selectSingle (fun f => f.id == id) db.folders with
  | none => (db, storage, .err 404)
  | some folder =>
    if folder.ownerId ≠ callerId then (db, storage, .err 403)
    else
      let contained := db.files.filter (fun f => f.folderId == some id)
      let storage1 := contained.foldl
        (fun st f =>
          if blobFails f.storagePath then st
          else st.filter (fun p => !(p == f.storagePath)))
        storage
      let files1 := db.files.filter (fun f => !(f.folderId == some id))
      let folders1 := db.folders.filter (fun f => !(f.id == id))
      ({ db with files := files1, folders := folders1 }, storage1, .ok)

/-! ## routes variant handlers (`part_004` files.routes, `part_006`
folders.routes and shares.routes, `search.routes.ts`) -/

/-- `DELETE /:id` of `folders.routes.ts` (`part_006`): soft delete.  The
update touches only the folder row; contained files are not cascaded. -/
def softDeleteFolderRts (db : DB) (t : Nat) (callerId : String) (id : String) :
    DB × Resp :=
  match selectSingle (fun f => f.id == id) db.folders with
  | none => (db, .err 404)
  | some folder =>
    if folder.ownerId ≠ callerId then (db, .err 403)
    else
      ({ db with folders := db.folders.map (fun f =>
           if f.id == id then { f with deletedAt := some t } else f) }, .ok)

/-- `POST /:id/restore` of `folders.routes.ts` (`part_006`): clears
`deleted_at` on the folder row only, again without touching files. -/
def restoreFolderRts (db : DB) (callerId : String) (id : String) :
    DB × Resp :=
  match selectSingle (fun f => f.id == id) db.folders with
  | none => (db, .err 404)
  | some folder =>
    if folder.ownerId ≠ callerId then (db, .err 403)
    else
      ({ db with folders := db.folders.map (fun f =>
           if f.id == id then { f with deletedAt := none } else f) }, .ok)

/-- Target-folder validation of `POST /api/files/upload` in
`files.routes.ts` (`part_004`): when a folder id is provided the folder
must exist (404) and belong to the uploader (403). -/
def targetFolderOk (db : DB) (userId : String) : Option String → Except Nat Unit
  | none => .ok ()
  | some fid =>
    match selectSingle (fun f => f.id == fid) db.folders with
    | none => .error 404
    | some f => if f.ownerId ≠ userId then .error 403 else .ok ()

/-- `POST /api/files/upload` of `files.routes.ts` (`part_004`).  `key`
stands for the computed storage key
`userId/uuid_encodeURIComponent(originalname)` (the uuid is external
randomness).  On a failed DB insert the handler removes the uploaded
object (`storage.remove([key])`, its own failure swallowed) and answers
500. -/
def uploadFilesRts (db : DB) (storage : List String) (userId : String)
    (originalname mimetype : String) (size : Nat) (folderId : Option String)
    (key : String) (uploadFails insertFails : Bool) :
    DB × List String × Resp :=
  match targetFolderOk db userId folderId with
  | .error s => (db, storage, .err s)
  | .ok _ =>
    if uploadFails then (db, storage, .err 500)
    else
      let storage1 := key :: storage
      if insertFails then
        (db, storage1.filter (fun p => !(p == key)), .err 500)
      else
        let row : FileRow :=
          { id := "", name := originalname, ownerId := userId,
            folderId := folderId, storagePath := key,
            size := size, mime := mimetype }
        ({ db with files := db.files ++ [row] }, storage1, .ok)

/-- `POST /upload` of `src/src/routes/upload.routes.ts` (firebase bucket).
After the blob stream finishes the metadata insert runs; if it fails the
handler answers 500 and leaves the blob in the bucket (there is no
rollback in this route).  `uuid` is the external `uuidv4()`. -/
def uploadFirebase (db : DB) (storage : List String) (userId : String)
    (originalname mimetype : String) (size : Nat) (bucketName uuid : String)
    (insertFails : Bool) : DB × List String × Resp :=
  let blobName := uuid ++ "_" ++ originalname
  let publicUrl := "https://storage.googleapis.com/" ++ bucketName ++ "/" ++ blobName
  let storage1 := blobName :: storage
  if insertFails then (db, storage1, .err 500)
  else
    let row : FileRow :=
      { id := "", name := originalname, ownerId := userId, folderId := none,
        storagePath := publicUrl, size := size, mime := mimetype }
    ({ db with files := db.files ++ [row] }, storage1, .ok)

/-- Milliseconds in a day, for `d.setDate(d.getDate() + expiresInDays)`. -/
def dayMs : Nat := 86400000

/-- The store call
`supabase.from('shares').upsert({resource_type, resource_id, owner_id,
role, expires_at}, { onConflict: 'resource_type,resource_id' }).select().single()`.
The table has a unique index on the conflict key and a column default
generating `link_token`.  Because `link_token` is not among the payload
columns, a conflicting upsert updates only the payload columns and leaves
the stored token unchanged; only a fresh insert receives the default
(`freshToken`).  Returns the new store, the response status, and the
`link_token` of the row echoed by `.select().single()`. -/
def sharesUpsert (db : DB) (rt : ResourceType) (rid u : String) (role : Role)
    (expires_at : Option Nat) (freshToken : String) : DB × Resp × Option String :=
  if db.shares.any (shareKey rt rid) then
    let shares1 := db.shares.map (fun s =>
      if shareKey rt rid s then { s with ownerId := u, role := role, expiresAt := expires_at }
      else s)
    match selectSingle (shareKey rt rid) shares1 with
    | some row => ({ db with shares := shares1 }, .ok, some row.linkToken)
    | none => ({ db with shares := shares1 }, .err 500, none)
  else
    let row : ShareRow := { resourceType := rt, resourceId := rid, ownerId := u,
                            role := role, expiresAt := expires_at, linkToken := freshToken }
    ({ db with shares := db.shares ++ [row] }, .ok, some row.linkToken)

/-- `POST /api/shares/link` of `shares.routes.ts` (`part_006`).  The
upsert payload is `{resource_type, resource_id, owner_id, role,
expires_at}` with `onConflict: 'resource_type,resource_id'`; `link_token`
is not in the payload, so on conflict the stored token is left unchanged
and only on a fresh insert does the column default supply a token
(`freshToken` here).  Returns the new store, the response status and the
`link_token` of the row the response echoes. -/
def createOrRotateLink (db : DB) (now : Nat) (userId : String)
    (rt : ResourceType) (rid : String) (role : Role) (expiresInDays : Option Int)
    (freshToken : String) : DB × Resp × Option String :=
  if rid.isEmpty then (db, .err 400, none)
  else
    match ownerIdOf db rt rid with
    | none => (db, .err 404, none)
    | some o =>
      if o ≠ userId then (db, .err 403, none)
      else
        let expires_at : Option Nat :=
          match expiresInDays with
          | some d => if 0 < d then some (now + d.toNat * dayMs) else none
          | none => none
        sharesUpsert db rt rid userId role expires_at freshToken

/-! ## search.routes.ts -/

/-- Case-insensitive substring test, modelling the `ilike` filter with
pattern `%q%` (only ever applied with nonempty `q`). -/
def containsCI (hay needle : String) : Bool :=
  2 ≤ ((hay.toLower).splitOn (needle.toLower)).length

/-- Insertion of one element into a list sorted by `le`; `sortRows` below
models the ORDER BY done by the store (an external collaborator — only
the multiset of returned rows matters to the properties proved here). -/
def insertSorted (le : α → α → Bool) (x : α) : List α → List α
  | [] => [x]
  | y :: ys => if le x y then x :: y :: ys else y :: insertSorted le x ys

/-- Sorting by repeated insertion (model of the ORDER BY clause). -/
def sortRows (le : α → α → Bool) : List α → List α
  | [] => []
  | x :: xs => insertSorted le x (sortRows le xs)

/-- PostgREST `.range(lo, hi)`: rows with indices `lo` to `hi` inclusive. -/
def applyRange (lo hi : Int) (l : List α) : List α :=
  (l.drop lo.toNat).take (hi - lo + 1).toNat

/-- Result shape of `GET /api/search`. -/
structure SearchOut where
  files : List FileRow
  folders : List FolderRow
deriving DecidableEq, Repr

/-- Row ordering selected by the `sort`/`asc` query parameters for files. -/
def fileLe (sort : String) (asc : Bool) (a b : FileRow) : Bool :=
  if sort == "name" then
    (if asc then (compare a.name b.name) ≠ Ordering.gt
     else (compare b.name a.name) ≠ Ordering.gt)
  else (if asc then a.createdAt ≤ b.createdAt else b.createdAt ≤ a.createdAt)

/-- Row ordering selected by the `sort`/`asc` query parameters for folders. -/
def folderLe (sort : String) (asc : Bool) (a b : FolderRow) : Bool :=
  if sort == "name" then
    (if asc then (compare a.name b.name) ≠ Ordering.gt
     else (compare b.name a.name) ≠ Ordering.gt)
  else (if asc then a.createdAt ≤ b.createdAt else b.createdAt ≤ a.createdAt)

/-- `GET /api/search` of `search.routes.ts`.  `q` is the already-trimmed
query string; `limitParam`/`offsetParam` are the `parseInt` results of the
`limit`/`offset` parameters (the handler computes
`limit = Math.min(limitParam, 100)` and `offset = Math.max(offsetParam, 0)`),
and `.range(offset, offset + limit - 1)` paginates.  Each scope filters to
the caller's rows with `deleted_at` null, applies the name filter when `q`
is nonempty, sorts, then paginates. -/
def searchHandler (db : DB) (userId : String) (q : String) (scope : String)
    (limitParam offsetParam : Int) (sort order : String) : SearchOut :=
  let lim := min limitParam 100
  let off := max offsetParam 0
  let asc := order.toLower == "asc"
  let wantFiles := scope == "files" || scope == "all"
  let wantFolders := scope == "folders" || scope == "all"
  let files :=
    if wantFiles then
      let rows := db.files.filter (fun f =>
        f.ownerId == userId && f.deletedAt == none && (q.isEmpty || containsCI f.name q))
      applyRange off (off + lim - 1) (sortRows (fileLe sort asc) rows)
    else []
  let folders :=
    if wantFolders then
      let rows := db.folders.filter (fun f =>
        f.ownerId == userId && f.deletedAt == none && (q.isEmpty || containsCI f.name q))
      applyRange off (off + lim - 1) (sortRows (folderLe sort asc) rows)
    else []
  { files := files, folders := folders }

/-! ## Concrete stores used by witnesses and counterexamples -/

/-- Store with no rows at all. -/
def emptyDB : DB := {}

/-- File `f1` owned by `u1`. -/
def fileC1 : FileRow := { id := "f1", name := "x.txt", ownerId := "u1", folderId := none }

/-- Unexpired editor link for `f1` with token `T1`. -/
def shareC1 : ShareRow :=
  { resourceType := .file, resourceId := "f1", ownerId := "u1", role := .editor,
    linkToken := "T1" }

/-- Viewer email grant for `f1`. -/
def grantC1 : PermissionRow :=
  { resourceType := .file, resourceId := "f1", granteeEmail := "grantee@example.com",
    role := .viewer }

/-- Store holding a file together with both a viewer grant and an editor link. -/
def dbC1 : DB := { files := [fileC1], shares := [shareC1], permissions := [grantC1] }

/-- Editor link for `f6` that expired at time 10. -/
def shareC6 : ShareRow :=
  { resourceType := .file, resourceId := "f6", ownerId := "u1", role := .editor,
    expiresAt := some 10, linkToken := "TE" }

/-- Store with one file and one expired link. -/
def dbC6 : DB :=
  { files := [{ id := "f6", name := "y.txt", ownerId := "u1", folderId := none }],
    shares := [shareC6] }

/-- Store with a dangling share row whose resource does not exist. -/
def dbC5 : DB :=
  { shares := [{ resourceType := .file, resourceId := "ghost", ownerId := "u1",
                 role := .editor, linkToken := "TK" }] }

/-- Store with a single file and no shares (starting point for rotation). -/
def dbC4 : DB := { files := [{ id := "f4", name := "z.txt", ownerId := "u1", folderId := none }] }

/-- Store after the owner creates a link with fresh token `T1`. -/
def dbC4a : DB := (createOrRotateLink dbC4 0 "u1" .file "f4" .editor none "T1").1

/-- Store after the owner calls the link route a second time (fresh token
would be `T2`). -/
def dbC4b : DB := (createOrRotateLink dbC4a 5 "u1" .file "f4" .viewer none "T2").1

/-- The share row present in `dbC4a` (first call inserted it with the
defaulted token `T1`). -/
def shareC4a : ShareRow :=
  { resourceType := .file, resourceId := "f4", ownerId := "u1", role := .editor,
    expiresAt := none, linkToken := "T1" }

/-- Folder `F1` with two contained files whose blobs are `pa` and `pb`. -/
def dbC3 : DB :=
  { files := [{ id := "a", name := "a.txt", ownerId := "u1", folderId := some "F1",
                storagePath := "pa" },
              { id := "b", name := "b.txt", ownerId := "u1", folderId := some "F1",
                storagePath := "pb" }],
    folders := [{ id := "F1", name := "docs", ownerId := "u1", parentId := none }] }

/-- Folder `F1` of `alice` containing file `f1` (used against the move routes). -/
def dbC2 : DB :=
  { folders := [{ id := "F1", name := "docs", ownerId := "alice", parentId := none }],
    files := [{ id := "f1", name := "x.txt", ownerId := "alice", folderId := some "F1" }] }

/-- Folder `F1` with one active contained file `a1`. -/
def dbC8 : DB :=
  { files := [{ id := "a1", name := "a.txt", ownerId := "u1", folderId := some "F1" }],
    folders := [{ id := "F1", name := "docs", ownerId := "u1", parentId := none }] }

/-- Store for the search claims: two live files of `u1`, one trashed file,
one file of another user, one folder. -/
def dbC10 : DB :=
  { files := [{ id := "s1", name := "report", ownerId := "u1", folderId := none, createdAt := 3 },
              { id := "s2", name := "old", ownerId := "u1", folderId := none,
                deletedAt := some 9, createdAt := 1 },
              { id := "s3", name := "other", ownerId := "u2", folderId := none, createdAt := 2 }],
    folders := [{ id := "d1", name := "docs", ownerId := "u1", parentId := none }] }

/-! ## Helper lemmas -/

theorem selectSingle_eq_of_filter {α : Type} {p : α → Bool} {l : List α} {s : α}
    (h : l.filter p = [s]) : selectSingle p l = some s := by
  simp [selectSingle, h]

theorem filter_map_of_pred_inv {α : Type} {p : α → Bool} {f : α → α}
    (h : ∀ x, p (f x) = p x) : ∀ l : List α, (l.map f).filter p = (l.filter p).map f
  | [] => rfl
  | x :: xs => by
    cases hx : p x with
    | true => simp [List.filter_cons, h x, hx, filter_map_of_pred_inv h xs]
    | false => simp [List.filter_cons, h x, hx, filter_map_of_pred_inv h xs]

theorem filter_and_eq_nil {α : Type} {p : α → Bool} (q : α → Bool) :
    ∀ {l : List α}, l.filter p = [] → l.filter (fun x => p x && q x) = []
  | [], _ => rfl
  | x :: xs, h => by
    cases hx : p x with
    | true => simp [List.filter_cons, hx] at h
    | false =>
      simp only [List.filter_cons, hx] at h
      simp [List.filter_cons, hx, filter_and_eq_nil q h]

theorem filter_and_eq_single {α : Type} {p : α → Bool} (q : α → Bool) {s : α}
    (hq : q s = true) :
    ∀ {l : List α}, l.filter p = [s] → l.filter (fun x => p x && q x) = [s]
  | [], h => by simp at h
  | x :: xs, h => by
    cases hx : p x with
    | true =>
      simp only [List.filter_cons, hx, if_true] at h
      have hx1 : x = s := (List.cons.injEq _ _ _ _).mp h |>.1
      have h2 : xs.filter p = [] := (List.cons.injEq _ _ _ _).mp h |>.2
      subst hx1
      simp [List.filter_cons, hx, hq, filter_and_eq_nil q h2]
    | false =>
      simp only [List.filter_cons, hx] at h
      simp [List.filter_cons, hx, filter_and_eq_single q hq h]

theorem filter_pos_of_filter_neg {α : Type} (p : α → Bool) :
    ∀ l : List α, (l.filter (fun x => !(p x))).filter p = []
  | [] => rfl
  | x :: xs => by
    cases hx : p x with
    | true => simp [List.filter_cons, hx, filter_pos_of_filter_neg p xs]
    | false => simp [List.filter_cons, hx, filter_pos_of_filter_neg p xs]

theorem mem_blobSweep {blobFails : String → Bool} {pth : String}
    (hb : blobFails pth = true) :
    ∀ (fs : List FileRow) (st : List String), pth ∈ st →
      pth ∈ fs.foldl
        (fun st f =>
          if blobFails f.storagePath then st
          else st.filter (fun p => !(p == f.storagePath)))
        st
  | [], _, h => h
  | f :: fs, st, h => by
    simp only [List.foldl_cons]
    apply mem_blobSweep hb fs
    cases hf : blobFails f.storagePath with
    | true => simpa [hf] using h
    | false =>
      have hne : pth ≠ f.storagePath := by
        intro he
        rw [he] at hb
        rw [hb] at hf
        cases hf
      simp only [hf, Bool.false_eq_true, if_false]
      exact List.mem_filter.mpr ⟨h, by simp [hne]⟩

theorem length_insertSorted {α : Type} (le : α → α → Bool) (x : α) :
    ∀ l : List α, (insertSorted le x l).length = l.length + 1
  | [] => rfl
  | y :: ys => by
    simp only [insertSorted]
    cases h : le x y with
    | true => simp
    | false => simp [length_insertSorted le x ys]

theorem length_sortRows {α : Type} (le : α → α → Bool) :
    ∀ l : List α, (sortRows le l).length = l.length
  | [] => rfl
  | x :: xs => by simp [sortRows, length_insertSorted, length_sortRows le xs]

theorem mem_insertSorted {α : Type} (le : α → α → Bool) (x a : α) :
    ∀ l : List α, a ∈ insertSorted le x l ↔ a = x ∨ a ∈ l
  | [] => by simp [insertSorted]
  | y :: ys => by
    simp only [insertSorted]
    cases h : le x y with
    | true => simp [List.mem_cons]
    | false =>
      simp only [h, Bool.false_eq_true, if_false, List.mem_cons, mem_insertSorted le x a ys]
      tauto

theorem mem_sortRows {α : Type} (le : α → α → Bool) (a : α) :
    ∀ l : List α, a ∈ sortRows le l ↔ a ∈ l
  | [] => Iff.rfl
  | x :: xs => by
    simp [sortRows, mem_insertSorted, mem_sortRows le a xs, List.mem_cons]

theorem length_applyRange {α : Type} (lo hi : Int) (l : List α) :
    (applyRange lo hi l).length ≤ (hi - lo + 1).toNat := by
  simp only [applyRange]
  exact List.length_take_le _ _

theorem mem_applyRange {α : Type} {a : α} {lo hi : Int} {l : List α}
    (h : a ∈ applyRange lo hi l) : a ∈ l :=
  List.drop_subset _ _ (List.take_subset _ _ h)

theorem ownerCheckPasses_none_user (x : Option String) :
    ownerCheckPasses x none = false := by cases x <;> rfl

theorem ownerCheckPasses_ne {o u : String} (h : o ≠ u) :
    ownerCheckPasses (some o) (some u) = false := by
  have hbe : (o == u) = false := beq_eq_false_iff_ne.mpr h
  simp [ownerCheckPasses, hbe]

theorem filter_key_map_update {rt : ResourceType} {rid : String} (u : String) (role : Role)
    (ex : Option Nat) {s : ShareRow} {l : List ShareRow}
    (hone : l.filter (shareKey rt rid) = [s]) :
    (l.map (fun x =>
        if shareKey rt rid x then { x with ownerId := u, role := role, expiresAt := ex }
        else x)).filter (shareKey rt rid)
      = [{ s with ownerId := u, role := role, expiresAt := ex }] := by
  have hs : s ∈ l.filter (shareKey rt rid) := by
    rw [hone]
    exact List.mem_singleton.mpr rfl
  have hkey : shareKey rt rid s = true := (List.mem_filter.mp hs).2
  have hpres : ∀ x : ShareRow,
      shareKey rt rid
        (if shareKey rt rid x then { x with ownerId := u, role := role, expiresAt := ex }
         else x)
      = shareKey rt rid x := by
    intro x
    cases hx : shareKey rt rid x with
    | true =>
      simp only [hx, if_true]
      exact hx
    | false => simp only [hx, Bool.false_eq_true, if_false]
  rw [filter_map_of_pred_inv hpres, hone]
  simp [hkey]

theorem sharesUpsert_existing {db : DB} {rt : ResourceType} {rid : String} (u : String)
    (role : Role) (ex : Option Nat) (fresh : String) {s : ShareRow}
    (hone : db.shares.filter (shareKey rt rid) = [s]) :
    sharesUpsert db rt rid u role ex fresh
      = ({ db with shares := db.shares.map (fun x =>
             if shareKey rt rid x then { x with ownerId := u, role := role, expiresAt := ex }
             else x) },
         Resp.ok, some s.linkToken) := by
  have hs : s ∈ db.shares.filter (shareKey rt rid) := by
    rw [hone]
    exact List.mem_singleton.mpr rfl
  have hmem := List.mem_filter.mp hs
  have hany : db.shares.any (shareKey rt rid) = true :=
    List.any_eq_true.mpr ⟨s, hmem.1, hmem.2⟩
  have hsel : selectSingle (shareKey rt rid)
      (db.shares.map (fun x =>
        if shareKey rt rid x then { x with ownerId := u, role := role, expiresAt := ex }
        else x))
      = some { s with ownerId := u, role := role, expiresAt := ex } :=
    selectSingle_eq_of_filter (filter_key_map_update u role ex hone)
  simp only [sharesUpsert, hany, eq_self_iff_true, if_true]
  rw [hsel]

theorem softDeleteFolderIdx_eval (db : DB) (tF tX : Nat) (c id : String) (fr : FolderRow)
    (hone : db.folders.filter (fun f => f.id == id) = [fr]) (hc : fr.ownerId = c) :
    softDeleteFolderIdx db tF tX c id
      = ({ db with
            folders := db.folders.map (fun f =>
              if f.id == id then { f with isDeleted := true, deletedAt := some tF, updatedAt := tF }
              else f),
            files := db.files.map (fun f =>
              if f.folderId == some id then { f with isDeleted := true, deletedAt := some tX }
              else f) }, Resp.ok) := by
  subst hc
  have hsel : selectSingle (fun f => f.id == id) db.folders = some fr :=
    selectSingle_eq_of_filter hone
  have heq : fr.id = id := by
    simpa using
      (List.mem_filter.mp
        (show fr ∈ db.folders.filter (fun f => f.id == id) by
          rw [hone]
          exact List.mem_singleton.mpr rfl)).2
  have hpres1 : ∀ f : FolderRow,
      ((if f.id == id then { f with isDeleted := true, deletedAt := some tF, updatedAt := tF }
        else f).id == id) = (f.id == id) := by
    intro f
    cases hx : (f.id == id) <;> simp [hx]
  have hfil1 : (db.folders.map (fun f =>
      if f.id == id then { f with isDeleted := true, deletedAt := some tF, updatedAt := tF }
      else f)).filter (fun f => f.id == id)
      = [{ fr with isDeleted := true, deletedAt := some tF, updatedAt := tF }] := by
    rw [filter_map_of_pred_inv hpres1, hone]
    simp [heq]
  have hsel1 := selectSingle_eq_of_filter hfil1
  unfold softDeleteFolderIdx
  split
  · rename_i h
    rw [hsel] at h
    exact Option.noConfusion h
  · rename_i folder h
    rw [hsel] at h
    injection h with h
    subst h
    split
    · rename_i hne
      exact absurd rfl hne
    · split
      · rename_i h2
        rw [hsel1] at h2
        exact Option.noConfusion h2
      · rfl

theorem restoreFolderIdx_eval (db : DB) (tR : Nat) (c id : String) (fr : FolderRow)
    (hone : db.folders.filter (fun f => f.id == id) = [fr]) (hc : fr.ownerId = c) :
    restoreFolderIdx db tR c id
      = ({ db with
            folders := db.folders.map (fun f =>
              if f.id == id then { f with isDeleted := false, deletedAt := none, updatedAt := tR }
              else f),
            files := db.files.map (fun f =>
              if f.folderId == some id then { f with isDeleted := false, deletedAt := none }
              else f) }, Resp.ok) := by
  subst hc
  have hsel : selectSingle (fun f => f.id == id) db.folders = some fr :=
    selectSingle_eq_of_filter hone
  have heq : fr.id = id := by
    simpa using
      (List.mem_filter.mp
        (show fr ∈ db.folders.filter (fun f => f.id == id) by
          rw [hone]
          exact List.mem_singleton.mpr rfl)).2
  have hpres2 : ∀ f : FolderRow,
      ((if f.id == id then { f with isDeleted := false, deletedAt := none, updatedAt := tR }
        else f).id == id) = (f.id == id) := by
    intro f
    cases hx : (f.id == id) <;> simp [hx]
  have hfil2 : (db.folders.map (fun f =>
      if f.id == id then { f with isDeleted := false, deletedAt := none, updatedAt := tR }
      else f)).filter (fun f => f.id == id)
      = [{ fr with isDeleted := false, deletedAt := none, updatedAt := tR }] := by
    rw [filter_map_of_pred_inv hpres2, hone]
    simp [heq]
  have hsel2 := selectSingle_eq_of_filter hfil2
  unfold restoreFolderIdx
  split
  · rename_i h
    rw [hsel] at h
    exact Option.noConfusion h
  · rename_i folder h
    rw [hsel] at h
    injection h with h
    subst h
    split
    · rename_i hne
      exact absurd rfl hne
    · split
      · rename_i h2
        rw [hsel2] at h2
        exact Option.noConfusion h2
      · rfl

/-! ## Claim C7 -/

/-- C7: when the resource exists and its owner id equals the (truthy)
principal id, `resolveUserRole` returns `owner` for every supplied share
token and every content of the shares and permissions tables — ownership
is checked first and never downgraded. -/
theorem c7_owner_always_resolves_owner (db : DB) (now : Nat) (rt : ResourceType)
    (rid o : String) (tok : Option String)
    (hown : ownerIdOf db rt rid = some o) (hne : o.isEmpty = false) :
    resolveUserRole db now (some o) rt rid tok = some Role.owner := by
  unfold resolveUserRole
  rw [hown]
  simp [ownerCheckPasses, hne]

/-- Witness for C7 on a store that also has an editor link (token `T1`)
and a viewer grant for the same file: the owner still resolves to owner
even when presenting the link token. -/
theorem c7_owner_always_resolves_owner_witness :
    ownerIdOf dbC1 ResourceType.file "f1" = some "u1" ∧
    ("u1").isEmpty = false ∧
    resolveUserRole dbC1 0 (some "u1") ResourceType.file "f1" (some "T1") = some Role.owner :=
  ⟨by decide, by decide,
   c7_owner_always_resolves_owner dbC1 0 ResourceType.file "f1" "u1" (some "T1")
     (by decide) (by decide)⟩

/-! ## Claim C6 -/

/-- C6: with no principal, a token whose link row exists but expired
strictly before `now` resolves to `none`, and a token with no matching
link row also resolves to `none`; neither falls through to any role. -/
theorem c6_expired_or_mismatched_token_none :
    (∀ (db : DB) (now : Nat) (rt : ResourceType) (rid tok : String) (sh : ShareRow) (e : Nat),
        findShare db rt rid tok = some sh → sh.expiresAt = some e → e < now →
        resolveUserRole db now none rt rid (some tok) = none) ∧
    (∀ (db : DB) (now : Nat) (rt : ResourceType) (rid tok : String),
        findShare db rt rid tok = none →
        resolveUserRole db now none rt rid (some tok) = none) := by
  constructor
  · intro db now rt rid tok sh e hfind hexp hlt
    unfold resolveUserRole
    simp [ownerCheckPasses_none_user, hfind, hexp, hlt]
  · intro db now rt rid tok hfind
    unfold resolveUserRole
    simp [ownerCheckPasses_none_user, hfind]

/-- Witness for C6: the expired editor link of `dbC6` (token `TE`,
expired at 10, resolved at 100) gives `none`, and the mismatched token
`TZ` gives `none` too. -/
theorem c6_expired_or_mismatched_token_none_witness :
    resolveUserRole dbC6 100 none ResourceType.file "f6" (some "TE") = none ∧
    resolveUserRole dbC6 100 none ResourceType.file "f6" (some "TZ") = none :=
  ⟨c6_expired_or_mismatched_token_none.1 dbC6 100 ResourceType.file "f6" "TE" shareC6 10
     (by decide) (by decide) (by decide),
   c6_expired_or_mismatched_token_none.2 dbC6 100 ResourceType.file "f6" "TZ" (by decide)⟩

/-! ## Claim C5 -/

/-- C5 counterexample: `resolveUserRole` does not fail with a NotFound
error when the resource is absent.  On the empty store it silently
returns `none`, and when a dangling share row matches the supplied token
it even returns that link role — there is no error path at all in the
source (`Promise<Role | null>`). -/
theorem c5_counterexample :
    resolveUserRole emptyDB 0 (some "u1") ResourceType.file "ghost" (some "tok") = none ∧
    resolveUserRole dbC5 0 (some "u1") ResourceType.file "ghost" (some "TK") = some Role.editor := by
  decide

/-- C5 amended: when the resource row is absent and no share row matches
the supplied token, `resolveUserRole` returns `none` (a normal value, not
a NotFound failure). -/
theorem c5_missing_resource_resolves_none (db : DB) (now : Nat) (userId : Option String)
    (rt : ResourceType) (rid : String) (tok : Option String)
    (hres : ownerIdOf db rt rid = none)
    (hsh : ∀ t, tok = some t → findShare db rt rid t = none) :
    resolveUserRole db now userId rt rid tok = none := by
  unfold resolveUserRole
  rw [hres]
  have hoc : ownerCheckPasses none userId = false := by cases userId <;> rfl
  rw [hoc]
  cases tok with
  | none => simp
  | some t => simp [hsh t rfl]

/-- Witness for C5 amended on the empty store. -/
theorem c5_missing_resource_resolves_none_witness :
    resolveUserRole emptyDB 3 (some "u1") ResourceType.folder "ghost" (some "tok") = none :=
  c5_missing_resource_resolves_none emptyDB 3 (some "u1") ResourceType.folder "ghost"
    (some "tok") (by decide)
    (by
      intro t ht
      injection ht with h
      subst h
      decide)

/-! ## Claim C1 -/

/-- C1 counterexample: `dbC1` has a viewer grant for the file and an
editor link; a non-owner principal supplying the valid link token
resolves to `editor`, not `viewer` — the grant is never consulted
(`resolveUserRole` takes no email and never queries the permissions
table). -/
theorem c1_counterexample :
    resolveUserRole dbC1 0 (some "u2") ResourceType.file "f1" (some "T1") = some Role.editor ∧
    resolveUserRole dbC1 0 (some "u2") ResourceType.file "f1" (some "T1") ≠ some Role.viewer := by
  decide

/-- C1 amended: email grants are never consulted by `resolveUserRole`.
For a non-owner principal presenting a valid unexpired link token, the
result is the link role, uniformly in the contents of the permissions
table. -/
theorem c1_grants_never_consulted (db : DB) (now : Nat) (u o rid tok : String)
    (rt : ResourceType) (sh : ShareRow) (perms : List PermissionRow)
    (hown : ownerIdOf db rt rid = some o) (hne : o ≠ u)
    (htok : tok.isEmpty = false)
    (hfind : findShare db rt rid tok = some sh) (hexp : sh.expiresAt = none) :
    resolveUserRole { db with permissions := perms } now (some u) rt rid (some tok)
      = some sh.role := by
  have h1 : ownerIdOf { db with permissions := perms } rt rid = ownerIdOf db rt rid := rfl
  have h2 : findShare { db with permissions := perms } rt rid tok = findShare db rt rid tok := rfl
  unfold resolveUserRole
  rw [h1, hown, ownerCheckPasses_ne hne]
  simp [htok, h2, hfind, hexp]

/-- Witness for C1 amended, instantiated at `dbC1` with its viewer grant
in place: resolution returns the link role `editor`. -/
theorem c1_grants_never_consulted_witness :
    resolveUserRole { dbC1 with permissions := [grantC1] } 0 (some "u2")
      ResourceType.file "f1" (some "T1") = some shareC1.role :=
  c1_grants_never_consulted dbC1 0 "u2" "u1" "f1" "T1" ResourceType.file shareC1 [grantC1]
    (by decide) (by decide) (by decide) (by decide) (by decide)

/-! ## Claim C4 -/

/-- C4 counterexample: after the owner calls the link route a second time
(the supposed rotation from `T1` to `T2`), the original token `T1` still
resolves — to the updated role, not to `none` — while the would-be fresh
token `T2` never entered the store. -/
theorem c4_counterexample :
    resolveUserRole dbC4b 10 none ResourceType.file "f4" (some "T1") = some Role.viewer ∧
    resolveUserRole dbC4b 10 none ResourceType.file "f4" (some "T1") ≠ none ∧
    resolveUserRole dbC4b 10 none ResourceType.file "f4" (some "T2") = none := by
  decide

/-- C4 amended: the link upsert keeps exactly one share row per
(resourceType, resourceId), but because `link_token` is not in the upsert
payload a repeated call preserves the stored token: the response echoes
the old token, the single row keeps it with the new role, and the old
token keeps resolving (to the updated role). -/
theorem c4_rotation_preserves_token (db : DB) (now : Nat) (u rid : String)
    (rt : ResourceType) (r2 : Role) (s : ShareRow) (fresh2 : String)
    (hrid : rid.isEmpty = false)
    (hown : ownerIdOf db rt rid = some u)
    (hone : db.shares.filter (shareKey rt rid) = [s]) :
    (createOrRotateLink db now u rt rid r2 none fresh2).2.1 = Resp.ok ∧
    (createOrRotateLink db now u rt rid r2 none fresh2).2.2 = some s.linkToken ∧
    (createOrRotateLink db now u rt rid r2 none fresh2).1.shares.filter (shareKey rt rid)
      = [{ s with ownerId := u, role := r2, expiresAt := none }] ∧
    (s.linkToken.isEmpty = false →
      ∀ now2 : Nat,
        resolveUserRole (createOrRotateLink db now u rt rid r2 none fresh2).1
          now2 none rt rid (some s.linkToken) = some r2) := by
  have heval0 : createOrRotateLink db now u rt rid r2 none fresh2
      = sharesUpsert db rt rid u r2 none fresh2 := by
    unfold createOrRotateLink
    simp [hrid, hown]
  have hex := sharesUpsert_existing u r2 none fresh2 hone
  have hfil := filter_key_map_update u r2 none hone
  refine ⟨?_, ?_, ?_, ?_⟩
  · rw [heval0, hex]
  · rw [heval0, hex]
  · rw [heval0, hex]
    exact hfil
  · intro htok now2
    rw [heval0, hex]
    have hf2 : (db.shares.map (fun x =>
        if shareKey rt rid x then { x with ownerId := u, role := r2, expiresAt := none }
        else x)).filter
          (fun x => shareKey rt rid x && x.linkToken == s.linkToken)
        = [{ s with ownerId := u, role := r2, expiresAt := none }] :=
      filter_and_eq_single (fun x => x.linkToken == s.linkToken) (by simp) hfil
    have hsel3 : findShare
        { db with shares := db.shares.map (fun x =>
            if shareKey rt rid x then { x with ownerId := u, role := r2, expiresAt := none }
            else x) } rt rid s.linkToken
        = some { s with ownerId := u, role := r2, expiresAt := none } :=
      selectSingle_eq_of_filter hf2
    simp [resolveUserRole, ownerCheckPasses_none_user, htok, hsel3]

/-- Witness for C4 amended at the concrete rotation `dbC4a` (token `T1`):
the second call answers with `T1`, keeps the single row with `T1`, and
`T1` then resolves to the updated role `viewer`. -/
theorem c4_rotation_preserves_token_witness :
    (createOrRotateLink dbC4a 5 "u1" ResourceType.file "f4" Role.viewer none "T2").2.2
      = some shareC4a.linkToken ∧
    (createOrRotateLink dbC4a 5 "u1" ResourceType.file "f4" Role.viewer none "T2").1.shares.filter
        (shareKey ResourceType.file "f4")
      = [{ shareC4a with ownerId := "u1", role := Role.viewer, expiresAt := none }] ∧
    resolveUserRole (createOrRotateLink dbC4a 5 "u1" ResourceType.file "f4" Role.viewer none "T2").1
      10 none ResourceType.file "f4" (some shareC4a.linkToken) = some Role.viewer := by
  have h := c4_rotation_preserves_token dbC4a 5 "u1" "f4" ResourceType.file Role.viewer
    shareC4a "T2" (by decide) (by decide) (by decide)
  exact ⟨h.2.1, h.2.2.1, h.2.2.2 (by decide) 10⟩

/-! ## Claim C2 -/

/-- C2: the move routes of `server/index.js` run their update without any
ownership (or role) check.  Authenticated caller `mallory` moves both the
folder `F1` and the file `f1` of `alice`: the handlers answer ok and the
rows are mutated, instead of the Forbidden-with-state-unchanged the claim
requires. -/
theorem c2_move_routes_bypass_owner_check :
    (moveFolderIdx dbC2 9 "mallory" "F1" (some "P2")).2 = Resp.ok ∧
    ((selectSingle (fun f => f.id == "F1") (moveFolderIdx dbC2 9 "mallory" "F1" (some "P2")).1.folders).map
        (fun f => f.parentId) = some (some "P2")) ∧
    (moveFileIdx dbC2 9 "mallory" "f1" none).2 = Resp.ok ∧
    ((selectSingle (fun f => f.id == "f1") (moveFileIdx dbC2 9 "mallory" "f1" none).1.files).map
        (fun f => f.folderId) = some none) ∧
    ((selectSingle (fun f => f.id == "F1") dbC2.folders).map (fun f => f.ownerId) = some "alice") ∧
    "alice" ≠ "mallory" := by
  decide

/-! ## Claim C3 -/

/-- C3 counterexample: hard-deleting folder `F1` whose file `b` has a
failing blob removal still answers plain ok (the response type has no
partial-failure shape at all), deletes the folder row and both file rows,
and leaves the failed blob `pb` orphaned in storage while `pa` was
removed. -/
theorem c3_counterexample :
    (hardDeleteFolderIdx dbC3 ["pa", "pb"] (fun p => p == "pb") "u1" "F1").2.2 = Resp.ok ∧
    (hardDeleteFolderIdx dbC3 ["pa", "pb"] (fun p => p == "pb") "u1" "F1").1.folders = [] ∧
    (hardDeleteFolderIdx dbC3 ["pa", "pb"] (fun p => p == "pb") "u1" "F1").1.files = [] ∧
    (hardDeleteFolderIdx dbC3 ["pa", "pb"] (fun p => p == "pb") "u1" "F1").2.1 = ["pb"] := by
  decide

/-- C3 amended: hard-deleting a folder owned by the caller removes the
contained blobs best-effort (failures are caught and ignored), then
unconditionally deletes every contained file row and the folder row and
reports success; no partial failure is ever reported, and a blob whose
removal failed stays behind in storage. -/
theorem c3_hard_delete_ignores_blob_failures (db : DB) (storage : List String)
    (blobFails : String → Bool) (c id : String) (fr : FolderRow)
    (hone : db.folders.filter (fun f => f.id == id) = [fr])
    (hown : fr.ownerId = c) :
    (hardDeleteFolderIdx db storage blobFails c id).2.2 = Resp.ok ∧
    (hardDeleteFolderIdx db storage blobFails c id).1.folders.filter
        (fun f => f.id == id) = [] ∧
    (hardDeleteFolderIdx db storage blobFails c id).1.files.filter
        (fun f => f.folderId == some id) = [] ∧
    ∀ p ∈ storage, blobFails p = true →
      p ∈ (hardDeleteFolderIdx db storage blobFails c id).2.1 := by
  subst hown
  have hsel : selectSingle (fun f => f.id == id) db.folders = some fr :=
    selectSingle_eq_of_filter hone
  have heval : hardDeleteFolderIdx db storage blobFails fr.ownerId id
      = ({ db with files := db.files.filter (fun f => !(f.folderId == some id)),
                   folders := db.folders.filter (fun f => !(f.id == id)) },
         (db.files.filter (fun f => f.folderId == some id)).foldl
           (fun st f =>
             if blobFails f.storagePath then st
             else st.filter (fun p => !(p == f.storagePath)))
           storage,
         Resp.ok) := by
    unfold hardDeleteFolderIdx
    rw [hsel]
    simp
  refine ⟨by rw [heval], ?_, ?_, ?_⟩
  · rw [heval]
    exact filter_pos_of_filter_neg _ _
  · rw [heval]
    exact filter_pos_of_filter_neg _ _
  · intro p hp hb
    rw [heval]
    exact mem_blobSweep hb _ _ hp

/-- Witness for C3 amended at the concrete store `dbC3` with blob `pb`
failing to delete. -/
theorem c3_hard_delete_ignores_blob_failures_witness :
    (hardDeleteFolderIdx dbC3 ["pa", "pb"] (fun p => p == "pb") "u1" "F1").2.2 = Resp.ok ∧
    (hardDeleteFolderIdx dbC3 ["pa", "pb"] (fun p => p == "pb") "u1" "F1").1.folders.filter
        (fun f => f.id == "F1") = [] ∧
    (hardDeleteFolderIdx dbC3 ["pa", "pb"] (fun p => p == "pb") "u1" "F1").1.files.filter
        (fun f => f.folderId == some "F1") = [] ∧
    "pb" ∈ (hardDeleteFolderIdx dbC3 ["pa", "pb"] (fun p => p == "pb") "u1" "F1").2.1 := by
  have h := c3_hard_delete_ignores_blob_failures dbC3 ["pa", "pb"] (fun p => p == "pb")
    "u1" "F1" { id := "F1", name := "docs", ownerId := "u1", parentId := none }
    (by decide) (by decide)
  exact ⟨h.1, h.2.1, h.2.2.1, h.2.2.2 "pb" (by decide) (by decide)⟩

/-! ## Claim C8 -/

/-- C8 counterexample: the folders.routes soft delete marks only the
folder row; the directly contained file `a1` keeps `deletedAt = none`,
so soft-deleting F does not set `deletedAt` on every contained file. -/
theorem c8_counterexample :
    (softDeleteFolderRts dbC8 7 "u1" "F1").2 = Resp.ok ∧
    ((selectSingle (fun f => f.id == "F1") (softDeleteFolderRts dbC8 7 "u1" "F1").1.folders).map
        (fun f => f.deletedAt) = some (some 7)) ∧
    (softDeleteFolderRts dbC8 7 "u1" "F1").1.files = dbC8.files ∧
    ((selectSingle (fun f => f.id == "a1") (softDeleteFolderRts dbC8 7 "u1" "F1").1.files).map
        (fun f => f.deletedAt) = some none) := by
  decide

/-- C8 amended: in `server/index.js`, the owner soft-deleting folder F
marks F (timestamp `tF`) and every file with `folder_id = F` (separate
timestamp `tX`), and the subsequent restore clears F and exactly the
`folder_id = F` files, leaving all other files untouched; in
`folders.routes.ts`, soft delete and restore never touch the files table
at all. -/
theorem c8_cascade_per_variant (db : DB) (tF tX tR t : Nat) (c id : String) (fr : FolderRow)
    (hone : db.folders.filter (fun f => f.id == id) = [fr])
    (hown : fr.ownerId = c) :
    (softDeleteFolderIdx db tF tX c id).2 = Resp.ok ∧
    selectSingle (fun f => f.id == id) (softDeleteFolderIdx db tF tX c id).1.folders
      = some { fr with isDeleted := true, deletedAt := some tF, updatedAt := tF } ∧
    (softDeleteFolderIdx db tF tX c id).1.files.all
      (fun f => !(f.folderId == some id) || (f.isDeleted && f.deletedAt == some tX)) = true ∧
    (restoreFolderIdx (softDeleteFolderIdx db tF tX c id).1 tR c id).2 = Resp.ok ∧
    selectSingle (fun f => f.id == id)
        (restoreFolderIdx (softDeleteFolderIdx db tF tX c id).1 tR c id).1.folders
      = some { fr with isDeleted := false, deletedAt := none, updatedAt := tR } ∧
    (restoreFolderIdx (softDeleteFolderIdx db tF tX c id).1 tR c id).1.files
      = db.files.map (fun f =>
          if f.folderId == some id then { f with isDeleted := false, deletedAt := none }
          else f) ∧
    (softDeleteFolderRts db t c id).1.files = db.files ∧
    (restoreFolderRts db c id).1.files = db.files := by
  subst hown
  have heq : fr.id = id := by
    simpa using
      (List.mem_filter.mp
        (show fr ∈ db.folders.filter (fun f => f.id == id) by
          rw [hone]
          exact List.mem_singleton.mpr rfl)).2
  have heval1 := softDeleteFolderIdx_eval db tF tX fr.ownerId id fr hone rfl
  have hpres1 : ∀ f : FolderRow,
      ((if f.id == id then { f with isDeleted := true, deletedAt := some tF, updatedAt := tF }
        else f).id == id) = (f.id == id) := by
    intro f
    cases hx : (f.id == id) <;> simp [hx]
  have hpres2 : ∀ f : FolderRow,
      ((if f.id == id then { f with isDeleted := false, deletedAt := none, updatedAt := tR }
        else f).id == id) = (f.id == id) := by
    intro f
    cases hx : (f.id == id) <;> simp [hx]
  have hfil1 : (db.folders.map (fun f =>
      if f.id == id then { f with isDeleted := true, deletedAt := some tF, updatedAt := tF }
      else f)).filter (fun f => f.id == id)
      = [{ fr with isDeleted := true, deletedAt := some tF, updatedAt := tF }] := by
    rw [filter_map_of_pred_inv hpres1, hone]
    simp [heq]
  have hX : (softDeleteFolderIdx db tF tX fr.ownerId id).1.folders.filter
      (fun f => f.id == id)
      = [{ fr with isDeleted := true, deletedAt := some tF, updatedAt := tF }] := by
    rw [heval1]
    exact hfil1
  have heval2 := restoreFolderIdx_eval (softDeleteFolderIdx db tF tX fr.ownerId id).1 tR
    fr.ownerId id { fr with isDeleted := true, deletedAt := some tF, updatedAt := tF } hX rfl
  refine ⟨by rw [heval1], ?_, ?_, by rw [heval2], ?_, ?_, ?_, ?_⟩
  · rw [heval1]
    exact selectSingle_eq_of_filter hfil1
  · rw [heval1]
    refine List.all_eq_true.mpr ?_
    intro f hf
    obtain ⟨x, hx, rfl⟩ := List.mem_map.mp hf
    cases hfd : (x.folderId == some id) with
    | true => simp [hfd]
    | false => simp [hfd]
  · rw [heval2]
    have hfil5 : ((softDeleteFolderIdx db tF tX fr.ownerId id).1.folders.map (fun f =>
        if f.id == id then { f with isDeleted := false, deletedAt := none, updatedAt := tR }
        else f)).filter (fun f => f.id == id)
        = [{ fr with isDeleted := false, deletedAt := none, updatedAt := tR }] := by
      rw [filter_map_of_pred_inv hpres2, hX]
      simp [heq]
    exact selectSingle_eq_of_filter hfil5
  · rw [heval2]
    have hY : (softDeleteFolderIdx db tF tX fr.ownerId id).1.files
        = db.files.map (fun f =>
            if f.folderId == some id then { f with isDeleted := true, deletedAt := some tX }
            else f) := by
      rw [heval1]
    show ((softDeleteFolderIdx db tF tX fr.ownerId id).1.files.map (fun f =>
        if f.folderId == some id then { f with isDeleted := false, deletedAt := none }
        else f))
      = db.files.map (fun f =>
          if f.folderId == some id then { f with isDeleted := false, deletedAt := none }
          else f)
    rw [hY, List.map_map]
    have hcomp : ((fun f : FileRow =>
          if f.folderId == some id then { f with isDeleted := false, deletedAt := none } else f)
        ∘ (fun f : FileRow =>
          if f.folderId == some id then { f with isDeleted := true, deletedAt := some tX }
          else f))
        = (fun f : FileRow =>
          if f.folderId == some id then { f with isDeleted := false, deletedAt := none }
          else f) := by
      funext x
      cases hfd : (x.folderId == some id) with
      | true => simp [Function.comp, hfd]
      | false => simp [Function.comp, hfd]
    rw [hcomp]
  · unfold softDeleteFolderRts
    split
    · rfl
    · split
      · rfl
      · rfl
  · unfold restoreFolderRts
    split
    · rfl
    · split
      · rfl
      · rfl

/-- Witness for C8 amended at `dbC8` (folder `F1`, contained file `a1`). -/
theorem c8_cascade_per_variant_witness :
    (softDeleteFolderIdx dbC8 5 6 "u1" "F1").2 = Resp.ok ∧
    selectSingle (fun f => f.id == "F1") (softDeleteFolderIdx dbC8 5 6 "u1" "F1").1.folders
      = some { ({ id := "F1", name := "docs", ownerId := "u1", parentId := none } : FolderRow) with
               isDeleted := true, deletedAt := some 5, updatedAt := 5 } ∧
    (softDeleteFolderIdx dbC8 5 6 "u1" "F1").1.files.all
      (fun f => !(f.folderId == some "F1") || (f.isDeleted && f.deletedAt == some 6)) = true ∧
    (restoreFolderIdx (softDeleteFolderIdx dbC8 5 6 "u1" "F1").1 9 "u1" "F1").2 = Resp.ok ∧
    selectSingle (fun f => f.id == "F1")
        (restoreFolderIdx (softDeleteFolderIdx dbC8 5 6 "u1" "F1").1 9 "u1" "F1").1.folders
      = some { ({ id := "F1", name := "docs", ownerId := "u1", parentId := none } : FolderRow) with
               isDeleted := false, deletedAt := none, updatedAt := 9 } ∧
    (restoreFolderIdx (softDeleteFolderIdx dbC8 5 6 "u1" "F1").1 9 "u1" "F1").1.files
      = dbC8.files.map (fun f =>
          if f.folderId == some "F1" then { f with isDeleted := false, deletedAt := none }
          else f) ∧
    (softDeleteFolderRts dbC8 7 "u1" "F1").1.files = dbC8.files ∧
    (restoreFolderRts dbC8 "u1" "F1").1.files = dbC8.files :=
  c8_cascade_per_variant dbC8 5 6 9 7 "u1" "F1"
    { id := "F1", name := "docs", ownerId := "u1", parentId := none }
    (by decide) (by decide)

/-! ## Claim C9 -/

/-- C9 counterexample: the firebase upload route answers 500 on a failed
metadata insert but leaves the freshly written blob in the bucket — no
rollback. -/
theorem c9_counterexample :
    "U1_x.txt" ∈ (uploadFirebase emptyDB [] "u1" "x.txt" "text/plain" 3 "bkt" "U1" true).2.1 ∧
    (uploadFirebase emptyDB [] "u1" "x.txt" "text/plain" 3 "bkt" "U1" true).2.2 = Resp.err 500 := by
  decide

/-- C9 amended: the two supabase-storage upload handlers
(`files.routes.ts` and `server/index.js`) do remove the just-uploaded
blob and answer 500 when the metadata insert fails, leaving the files
table untouched; the firebase route (see the counterexample) does not. -/
theorem c9_supabase_uploads_rollback_blob :
    (∀ (db : DB) (storage : List String) (userId name mt : String) (size : Nat)
        (folderId : Option String) (key : String),
        targetFolderOk db userId folderId = .ok () →
        key ∉ (uploadFilesRts db storage userId name mt size folderId key false true).2.1 ∧
        (uploadFilesRts db storage userId name mt size folderId key false true).2.2
          = Resp.err 500 ∧
        (uploadFilesRts db storage userId name mt size folderId key false true).1 = db) ∧
    (∀ (db : DB) (storage : List String) (owner name mt : String) (size : Nat)
        (folder_id : Option String) (newId : String),
        ("user-" ++ owner ++ "/" ++ newId ++ "_" ++ collapseWs name)
            ∉ (uploadIdx db storage owner name mt size folder_id newId false true).2.1 ∧
        (uploadIdx db storage owner name mt size folder_id newId false true).2.2
          = Resp.err 500 ∧
        (uploadIdx db storage owner name mt size folder_id newId false true).1 = db) := by
  constructor
  · intro db storage userId name mt size folderId key htf
    have heval : uploadFilesRts db storage userId name mt size folderId key false true
        = (db, (key :: storage).filter (fun p => !(p == key)), Resp.err 500) := by
      unfold uploadFilesRts
      split
      · rename_i s h
        rw [htf] at h
        exact Except.noConfusion h
      · rfl
    refine ⟨?_, by rw [heval], by rw [heval]⟩
    rw [heval]
    intro hmem
    have h2 := List.mem_filter.mp hmem
    simp at h2
  · intro db storage owner name mt size folder_id newId
    have heval : uploadIdx db storage owner name mt size folder_id newId false true
        = (db, (("user-" ++ owner ++ "/" ++ newId ++ "_" ++ collapseWs name) :: storage).filter
            (fun p => !(p == ("user-" ++ owner ++ "/" ++ newId ++ "_" ++ collapseWs name))),
           Resp.err 500) := rfl
    refine ⟨?_, by rw [heval], by rw [heval]⟩
    rw [heval]
    intro hmem
    have h2 := List.mem_filter.mp hmem
    simp at h2

/-- Witness for C9 amended at concrete uploads (with a whitespace name
for the index.js path sanitisation). -/
theorem c9_supabase_uploads_rollback_blob_witness :
    "k1" ∉ (uploadFilesRts emptyDB [] "u1" "x.txt" "text/plain" 3 none "k1" false true).2.1 ∧
    (uploadFilesRts emptyDB [] "u1" "x.txt" "text/plain" 3 none "k1" false true).2.2
      = Resp.err 500 ∧
    (uploadFilesRts emptyDB [] "u1" "x.txt" "text/plain" 3 none "k1" false true).1 = emptyDB ∧
    ("user-" ++ "u1" ++ "/" ++ "N1" ++ "_" ++ collapseWs "a b.txt")
        ∉ (uploadIdx emptyDB [] "u1" "a b.txt" "text/plain" 3 none "N1" false true).2.1 ∧
    (uploadIdx emptyDB [] "u1" "a b.txt" "text/plain" 3 none "N1" false true).2.2
      = Resp.err 500 := by
  have h1 := c9_supabase_uploads_rollback_blob.1 emptyDB [] "u1" "x.txt" "text/plain" 3
    none "k1" rfl
  have h2 := c9_supabase_uploads_rollback_blob.2 emptyDB [] "u1" "a b.txt" "text/plain" 3
    none "N1"
  exact ⟨h1.1, h1.2.1, h1.2.2, h2.1, h2.2.1⟩

/-! ## Claim C10 -/

/-- C10 counterexample: for a limit parameter parsing to the integer -5,
the handler clamps only from above (`Math.min(limit, 100)`), so the
claimed bound `files.length ≤ min limit 100 = -5` is violated (the
response carries 0 files). -/
theorem c10_counterexample :
    ¬ (((searchHandler dbC10 "u1" "" "all" (-5) 0 "created_at" "desc").files.length : Int)
        ≤ min (-5) 100) := by
  decide

/-- C10 amended: the search endpoint returns at most `(min limit 100).toNat`
files and folders (so nothing at all for a nonpositive limit), a negative
offset behaves exactly like offset 0, and every returned row is owned by
the caller with `deletedAt` null. -/
theorem c10_search_bounds_and_filters (db : DB) (userId q scope : String)
    (L O : Int) (sort order : String) :
    (searchHandler db userId q scope L O sort order).files.length ≤ (min L 100).toNat ∧
    (searchHandler db userId q scope L O sort order).folders.length ≤ (min L 100).toNat ∧
    (O < 0 → searchHandler db userId q scope L O sort order
        = searchHandler db userId q scope L 0 sort order) ∧
    (searchHandler db userId q scope L O sort order).files.all
      (fun f => f.ownerId == userId && f.deletedAt == none) = true ∧
    (searchHandler db userId q scope L O sort order).folders.all
      (fun f => f.ownerId == userId && f.deletedAt == none) = true := by
  have hlen : ∀ {β : Type} (lo lim : Int) (l : List β),
      (applyRange lo (lo + lim - 1) l).length ≤ lim.toNat := by
    intro β lo lim l
    have h := length_applyRange lo (lo + lim - 1) l
    have he : (lo + lim - 1) - lo + 1 = lim := by ring
    rwa [he] at h
  refine ⟨?_, ?_, ?_, ?_, ?_⟩
  · cases hw : (scope == "files" || scope == "all") with
    | true =>
      simp only [searchHandler, hw, eq_self_iff_true, if_true]
      exact hlen _ _ _
    | false => simp [searchHandler, hw]
  · cases hw : (scope == "folders" || scope == "all") with
    | true =>
      simp only [searchHandler, hw, eq_self_iff_true, if_true]
      exact hlen _ _ _
    | false => simp [searchHandler, hw]
  · intro hO
    have h0 : max O 0 = 0 := max_eq_right (le_of_lt hO)
    simp only [searchHandler, h0, max_self]
  · cases hw : (scope == "files" || scope == "all") with
    | false => simp [searchHandler, hw]
    | true =>
      simp only [searchHandler, hw, eq_self_iff_true, if_true]
      refine List.all_eq_true.mpr ?_
      intro f hf
      have hf2 := mem_applyRange hf
      have hf3 := (mem_sortRows _ f _).mp hf2
      have hf4 := List.mem_filter.mp hf3
      have hp := hf4.2
      simp only [Bool.and_eq_true] at hp ⊢
      exact hp.1
  · cases hw : (scope == "folders" || scope == "all") with
    | false => simp [searchHandler, hw]
    | true =>
      simp only [searchHandler, hw, eq_self_iff_true, if_true]
      refine List.all_eq_true.mpr ?_
      intro f hf
      have hf2 := mem_applyRange hf
      have hf3 := (mem_sortRows _ f _).mp hf2
      have hf4 := List.mem_filter.mp hf3
      have hp := hf4.2
      simp only [Bool.and_eq_true] at hp ⊢
      exact hp.1

/-- Witness for C10 amended at `dbC10` with limit 20 and offset -3. -/
theorem c10_search_bounds_and_filters_witness :
    (searchHandler dbC10 "u1" "" "all" 20 (-3) "name" "asc").files.length
      ≤ (min (20 : Int) 100).toNat ∧
    (searchHandler dbC10 "u1" "" "all" 20 (-3) "name" "asc").folders.length
      ≤ (min (20 : Int) 100).toNat ∧
    searchHandler dbC10 "u1" "" "all" 20 (-3) "name" "asc"
      = searchHandler dbC10 "u1" "" "all" 20 0 "name" "asc" ∧
    (searchHandler dbC10 "u1" "" "all" 20 (-3) "name" "asc").files.all
      (fun f => f.ownerId == "u1" && f.deletedAt == none) = true ∧
    (searchHandler dbC10 "u1" "" "all" 20 (-3) "name" "asc").folders.all
      (fun f => f.ownerId == "u1" && f.deletedAt == none) = true := by
  have h := c10_search_bounds_and_filters dbC10 "u1" "" "all" 20 (-3) "name" "asc"
  exact ⟨h.1, h.2.1, h.2.2.1 (by decide), h.2.2.2.1, h.2.2.2.2⟩

end GDrive
